import Mathlib

/-!
Verification of the markdown-to-Notion-block converter from
`scripts/notion/notion_client.py` (`parse_inline_formatting`, `markdown_to_blocks`)
and its near-duplicate in `scripts/sync-problem-to-notion.py`
(`parse_inline_formatting`, `markdown_to_notion_blocks`).

Strings are modelled as `List Char` (Python `str`).  The Python `while` loops
are modelled by fuel-indexed functions returning `Option`; `none` means the
fuel budget was exhausted, and a fuel bound of `#lines + 1` is proved
sufficient, which is the termination argument for the source loops.
-/

/-- Python `str.strip()` whitespace set (ASCII): space, tab, newline,
carriage return, vertical tab, form feed. -/
def isPySpace (c : Char) : Bool :=
  c = ' ' || c = '\t' || c = '\n' || c = '\r' || c = '\x0b' || c = '\x0c'

/-- Python `str.strip()`: drop leading and trailing whitespace. -/
def pyStrip (l : List Char) : List Char :=
  ((l.dropWhile isPySpace).reverse.dropWhile isPySpace).reverse

/-- Python `line.startswith(pre)` (second argument is the candidate prefix). -/
def pyStartsWith : List Char → List Char → Bool
  | _, [] => true
  | [], _ :: _ => false
  | c :: l, p :: ps => c == p && pyStartsWith l ps

/-- Python `line.endswith(suf)`. -/
def pyEndsWith (l suf : List Char) : Bool :=
  pyStartsWith l.reverse suf.reverse

/-- Python `markdown.split('\n')` (note: splitting the empty string yields `[""]`). -/
def splitLines : List Char → List (List Char)
  | [] => [[]]
  | c :: rest =>
    match splitLines rest with
    | [] => [[]]
    | h :: t => if c = '\n' then [] :: h :: t else (c :: h) :: t

/-- Python `'\n'.join(lines)`. -/
def joinNL (ls : List (List Char)) : List Char :=
  List.intercalate ['\n'] ls

/-- Python slice `part[n:-n]` (drop `n` characters from each end, clamped). -/
def sliceInner (n : Nat) (l : List Char) : List Char :=
  (l.drop n).take (l.length - 2 * n)

/-- One Notion `rich_text` item as built by `parse_inline_formatting`:
`{"type": "text", "text": {"content": ...}, "annotations": {...}}`. -/
structure Span where
  content : List Char
  bold : Bool
  italic : Bool
  code : Bool
  strikethrough : Bool
  underline : Bool
  color : List Char
  deriving DecidableEq, Repr

/-- Plain-text span with the default annotation set. -/
def plainSpan (content : List Char) : Span :=
  ⟨content, false, false, false, false, false, "default".data⟩

/-- A character that is none of the three inline delimiters; the regex
alternative `[^`*_]+`. -/
def isPlainChar (c : Char) : Bool :=
  c ≠ '`' && c ≠ '*' && c ≠ '_'

/-- Fuel-indexed model of
`re.findall(r'(`[^`]+`|\*\*[^*]+\*\*|\*[^*]+\*|_[^_]+_|[^`*_]+)', text)`:
the scan tries the alternatives in order at each position and advances by one
character when none matches.  Each character class excludes its closing
delimiter, so every alternative is deterministic (no backtracking ambiguity).
Fuel  `≥ length` is sufficient (each step consumes at least one character). -/
def findPartsF : Nat → List Char → List (List Char)
  | 0, _ => []
  | _ + 1, [] => []
  | f + 1, c :: rest =>
    if c = '`' then
      -- alternative ``[^`]+`` : the run stops at the next backtick
      let tw := rest.takeWhile (fun d => d ≠ '`')
      let dw := rest.dropWhile (fun d => d ≠ '`')
      if tw ≠ [] && dw ≠ [] then
        ('`' :: tw ++ ['`']) :: findPartsF f (dw.drop 1)
      else
        findPartsF f rest
    else if c = '*' then
      if rest.head? = some '*' then
        -- alternative `\*\*[^*]+\*\*`
        let rest2 := rest.tail
        let tw := rest2.takeWhile (fun d => d ≠ '*')
        let dw := rest2.dropWhile (fun d => d ≠ '*')
        if tw ≠ [] && pyStartsWith dw ['*', '*'] then
          ('*' :: '*' :: tw ++ ['*', '*']) :: findPartsF f (dw.drop 2)
        else
          -- `\*[^*]+\*` also fails here (the next character is `*`)
          findPartsF f rest
      else
        -- alternative `\*[^*]+\*`
        let tw := rest.takeWhile (fun d => d ≠ '*')
        let dw := rest.dropWhile (fun d => d ≠ '*')
        if tw ≠ [] && dw ≠ [] then
          ('*' :: tw ++ ['*']) :: findPartsF f (dw.drop 1)
        else
          findPartsF f rest
    else if c = '_' then
      -- alternative `_[^_]+_`
      let tw := rest.takeWhile (fun d => d ≠ '_')
      let dw := rest.dropWhile (fun d => d ≠ '_')
      if tw ≠ [] && dw ≠ [] then
        ('_' :: tw ++ ['_']) :: findPartsF f (dw.drop 1)
      else
        findPartsF f rest
    else
      -- alternative `[^`*_]+` : maximal run of non-delimiter characters
      (c :: rest.takeWhile isPlainChar) :: findPartsF f (rest.dropWhile isPlainChar)

/-- `re.findall` of the inline pattern over the whole text. -/
def findParts (l : List Char) : List (List Char) :=
  findPartsF l.length l

/-- The per-part body of the `for part in parts` loop of
`parse_inline_formatting` (both copies build the same annotation values). -/
def classifyPart (part : List Char) : Span :=
  if pyStartsWith part ['`'] && pyEndsWith part ['`'] then
    ⟨(sliceInner 1 part).take 2000, false, false, true, false, false, "default".data⟩
  else if pyStartsWith part ['*', '*'] && pyEndsWith part ['*', '*'] then
    ⟨(sliceInner 2 part).take 2000, true, false, false, false, false, "default".data⟩
  else if (pyStartsWith part ['*'] && pyEndsWith part ['*']) ||
      (pyStartsWith part ['_'] && pyEndsWith part ['_']) then
    ⟨(sliceInner 1 part).take 2000, false, true, false, false, false, "default".data⟩
  else
    plainSpan (part.take 2000)

/-- `parse_inline_formatting(text)` (identical logic in `notion_client.py`
lines 81-122 and `sync-problem-to-notion.py` lines 99-153): classify each
regex part, skipping empty parts, and fall back to one plain span holding the
whole (truncated) text when no part was produced. -/
def parse_inline_formatting (text : List Char) : List Span :=
  let parts := findParts text
  let rich := (parts.filter (fun p => !p.isEmpty)).map classifyPart
  if rich.isEmpty then [plainSpan (text.take 2000)] else rich

/-- One Notion content block as built by the converters.  A `code` block's
`rich_text` is a list of bare text items (the source builds the singleton
`[{"type": "text", "text": {"content": body}}]` with no annotations), so it is
modelled as a list of content strings. -/
inductive Block where
  | heading2 (richText : List Span)
  | heading3 (richText : List Span)
  | divider
  | quote (richText : List Span)
  | toDo (richText : List Span) (checked : Bool)
  | bulleted (richText : List Span)
  | numbered (richText : List Span)
  | code (richText : List (List Char)) (language : List Char)
  | paragraph (richText : List Span)
  deriving DecidableEq, Repr

/-- Python `re.match(r'^\d+\.\s', line)` (with `\d` as ASCII digits and `\s`
as the ASCII whitespace class): one or more digits, a dot, one whitespace
character.  Both quantified classes exclude the following required character,
so the greedy match is forced. -/
def numberedMatch (l : List Char) : Bool :=
  !(l.takeWhile Char.isDigit).isEmpty &&
    (match l.dropWhile Char.isDigit with
     | '.' :: w :: _ => isPySpace w
     | _ => false)

/-- Python `re.sub(r'^\d+\.\s', '', line)` when `numberedMatch` holds: strip
the digits, the dot and the single whitespace character. -/
def numberedSub (l : List Char) : List Char :=
  (l.dropWhile Char.isDigit).drop 2

/-- The `valid_langs` list literal in `notion_client.markdown_to_blocks`. -/
def clientLangs : List (List Char) :=
  ["javascript".data, "python".data, "json".data, "bash".data, "sql".data,
   "typescript".data, "html".data, "css".data, "go".data, "ruby".data, "java".data]

/-- The `valid_langs` list literal in
`sync-problem-to-notion.markdown_to_notion_blocks` (no go/ruby/java). -/
def syncLangs : List (List Char) :=
  ["javascript".data, "python".data, "json".data, "bash".data, "sql".data,
   "typescript".data, "html".data, "css".data]

/-- `"plain text"` as a character list. -/
def ptLang : List Char := "plain text".data

/-- Fuel-indexed model of the `while i < len(lines)` loop of
`notion_client.markdown_to_blocks` (lines 125-271).  One unit of fuel is one
iteration of that loop; `none` models fuel exhaustion.  The branch order and
tests mirror the source exactly. -/
def convClientAux : Nat → List (List Char) → Option (List Block)
  | 0, _ => none
  | _ + 1, [] => some []
  | f + 1, line :: rest =>
    if (pyStrip line).isEmpty then
      convClientAux f rest
    else if pyStartsWith line "# ".data then
      convClientAux f rest
    else if pyStartsWith line "## ".data then
      (convClientAux f rest).map
        (Block.heading2 (parse_inline_formatting (pyStrip (line.drop 3))) :: ·)
    else if pyStartsWith line "### ".data then
      (convClientAux f rest).map
        (Block.heading3 (parse_inline_formatting (pyStrip (line.drop 4))) :: ·)
    else if pyStartsWith line "#### ".data then
      (convClientAux f rest).map
        (Block.heading3 (parse_inline_formatting (pyStrip (line.drop 5))) :: ·)
    else if pyStrip line = "---".data then
      (convClientAux f rest).map (Block.divider :: ·)
    else if pyStartsWith line "> ".data then
      (convClientAux f rest).map
        (Block.quote (parse_inline_formatting (pyStrip (line.drop 2))) :: ·)
    else if pyStartsWith line "- [ ] ".data || pyStartsWith line "- [x] ".data then
      (convClientAux f rest).map
        (Block.toDo (parse_inline_formatting (pyStrip (line.drop 6)))
          (pyStartsWith line "- [x] ".data) :: ·)
    else if pyStartsWith line "- ".data || pyStartsWith line "* ".data then
      (convClientAux f rest).map
        (Block.bulleted (parse_inline_formatting (pyStrip (line.drop 2))) :: ·)
    else if numberedMatch line then
      (convClientAux f rest).map
        (Block.numbered (parse_inline_formatting (pyStrip (numberedSub line))) :: ·)
    else if pyStartsWith line "|".data then
      let run := line :: rest.takeWhile (fun l => pyStartsWith l "|".data)
      (convClientAux f (rest.dropWhile (fun l => pyStartsWith l "|".data))).map
        (Block.code [(joinNL run).take 2000] ptLang :: ·)
    else if pyStartsWith line "```".data then
      let lang0 := pyStrip (line.drop 3)
      let lang := if lang0.isEmpty then ptLang else lang0
      let body := rest.takeWhile (fun l => !pyStartsWith l "```".data)
      (convClientAux f ((rest.dropWhile (fun l => !pyStartsWith l "```".data)).drop 1)).map
        (Block.code [(joinNL body).take 2000]
          (if clientLangs.contains lang then lang else ptLang) :: ·)
    else
      let text := pyStrip line
      (convClientAux f rest).map
        (fun bs => if text.isEmpty then bs else Block.paragraph (parse_inline_formatting text) :: bs)

/-- Fuel-indexed model of the `while i < len(lines)` loop of
`sync-problem-to-notion.markdown_to_notion_blocks` (lines 156-308).  It
differs from `convClientAux` in exactly three places, mirroring the source:
the bullet branch comes before the checkbox branch and internally skips lines
whose stripped text starts with `[ ]` or `[x]`, there is no numbered-list
branch, and the code-language allow-list is `syncLangs`. -/
def convSyncAux : Nat → List (List Char) → Option (List Block)
  | 0, _ => none
  | _ + 1, [] => some []
  | f + 1, line :: rest =>
    if (pyStrip line).isEmpty then
      convSyncAux f rest
    else if pyStartsWith line "# ".data then
      convSyncAux f rest
    else if pyStartsWith line "## ".data then
      (convSyncAux f rest).map
        (Block.heading2 (parse_inline_formatting (pyStrip (line.drop 3))) :: ·)
    else if pyStartsWith line "### ".data then
      (convSyncAux f rest).map
        (Block.heading3 (parse_inline_formatting (pyStrip (line.drop 4))) :: ·)
    else if pyStartsWith line "#### ".data then
      (convSyncAux f rest).map
        (Block.heading3 (parse_inline_formatting (pyStrip (line.drop 5))) :: ·)
    else if pyStrip line = "---".data then
      (convSyncAux f rest).map (Block.divider :: ·)
    else if pyStartsWith line "> ".data then
      (convSyncAux f rest).map
        (Block.quote (parse_inline_formatting (pyStrip (line.drop 2))) :: ·)
    else if pyStartsWith line "- ".data || pyStartsWith line "* ".data then
      let bulletText := pyStrip (line.drop 2)
      (convSyncAux f rest).map
        (fun bs =>
          if pyStartsWith bulletText "[ ]".data || pyStartsWith bulletText "[x]".data then
            bs
          else
            Block.bulleted (parse_inline_formatting bulletText) :: bs)
    else if pyStartsWith line "- [ ] ".data || pyStartsWith line "- [x] ".data then
      (convSyncAux f rest).map
        (Block.toDo (parse_inline_formatting (pyStrip (line.drop 6)))
          (pyStartsWith line "- [x] ".data) :: ·)
    else if pyStartsWith line "|".data then
      let run := line :: rest.takeWhile (fun l => pyStartsWith l "|".data)
      (convSyncAux f (rest.dropWhile (fun l => pyStartsWith l "|".data))).map
        (Block.code [(joinNL run).take 2000] ptLang :: ·)
    else if pyStartsWith line "```".data then
      let lang0 := pyStrip (line.drop 3)
      let lang := if lang0.isEmpty then ptLang else lang0
      let body := rest.takeWhile (fun l => !pyStartsWith l "```".data)
      (convSyncAux f ((rest.dropWhile (fun l => !pyStartsWith l "```".data)).drop 1)).map
        (Block.code [(joinNL body).take 2000]
          (if syncLangs.contains lang then lang else ptLang) :: ·)
    else
      let text := pyStrip line
      (convSyncAux f rest).map
        (fun bs => if text.isEmpty then bs else Block.paragraph (parse_inline_formatting text) :: bs)

/-- The converter of `notion_client.py` on a pre-split line list, run with the
sufficient fuel budget `#lines + 1`. -/
def convertClient (ls : List (List Char)) : List Block :=
  (convClientAux (ls.length + 1) ls).getD []

/-- The converter of `sync-problem-to-notion.py` on a pre-split line list. -/
def convertSync (ls : List (List Char)) : List Block :=
  (convSyncAux (ls.length + 1) ls).getD []

/-- `notion_client.markdown_to_blocks(markdown)`. -/
def markdown_to_blocks (markdown : String) : List Block :=
  convertClient (splitLines markdown.data)

/-- `sync-problem-to-notion.markdown_to_notion_blocks(markdown)`. -/
def markdown_to_notion_blocks (markdown : String) : List Block :=
  convertSync (splitLines markdown.data)

/-- Concatenation of the contents of a span list. -/
def spanConcat (ss : List Span) : List Char :=
  (ss.map Span.content).flatten

/-- True when a span carries no inline style flag (a "plain" span). -/
def isPlainSpan (s : Span) : Bool :=
  !s.bold && !s.italic && !s.code

/-- True when some two adjacent spans in the list are both plain. -/
def hasAdjacentPlain : List Span → Bool
  | a :: b :: rest => (isPlainSpan a && isPlainSpan b) || hasAdjacentPlain (b :: rest)
  | _ => false

/-- The `rich_text` list attached to a block is non-empty (dividers carry no
`rich_text` and count as trivially fine). -/
def richNonEmpty : Block → Bool
  | .heading2 rt => !rt.isEmpty
  | .heading3 rt => !rt.isEmpty
  | .divider => true
  | .quote rt => !rt.isEmpty
  | .toDo rt _ => !rt.isEmpty
  | .bulleted rt => !rt.isEmpty
  | .numbered rt => !rt.isEmpty
  | .code rt _ => !rt.isEmpty
  | .paragraph rt => !rt.isEmpty

/-- Every span content (and every code-block body) in the block has length at
most 2000. -/
def blockLe2000 : Block → Bool
  | .heading2 rt => rt.all fun s => decide (s.content.length ≤ 2000)
  | .heading3 rt => rt.all fun s => decide (s.content.length ≤ 2000)
  | .divider => true
  | .quote rt => rt.all fun s => decide (s.content.length ≤ 2000)
  | .toDo rt _ => rt.all fun s => decide (s.content.length ≤ 2000)
  | .bulleted rt => rt.all fun s => decide (s.content.length ≤ 2000)
  | .numbered rt => rt.all fun s => decide (s.content.length ≤ 2000)
  | .code rt _ => rt.all fun t => decide (t.length ≤ 2000)
  | .paragraph rt => rt.all fun s => decide (s.content.length ≤ 2000)

/-- A line is neutral when it triggers none of the branches on which the two
converters differ: bullets (and thus checklists), numbered lines, code fences. -/
def lineNeutral (l : List Char) : Bool :=
  !pyStartsWith l ['-', ' '] && !pyStartsWith l ['*', ' '] &&
    !numberedMatch l && !pyStartsWith l ['`', '`', '`']

example : splitLines "a\nb".data = ["a".data, "b".data] := by decide
example : splitLines [] = [[]] := by decide
example : pyStrip "  x ".data = "x".data := by decide
example : pyStartsWith "abc".data "ab".data = true := by decide
example : pyEndsWith "abc".data "bc".data = true := by decide
example : joinNL ["a".data, "b".data] = "a\nb".data := by decide

example :
    parse_inline_formatting "Hello **bold** and `code` and *italic*".data =
      [plainSpan "Hello ".data,
       ⟨"bold".data, true, false, false, false, false, "default".data⟩,
       plainSpan " and ".data,
       ⟨"code".data, false, false, true, false, false, "default".data⟩,
       plainSpan " and ".data,
       ⟨"italic".data, false, true, false, false, false, "default".data⟩] := by
  decide

example : parse_inline_formatting "a*b".data = [plainSpan "a".data, plainSpan "b".data] := by
  decide

example : parse_inline_formatting "__".data = [plainSpan "__".data] := by decide
example : parse_inline_formatting [] = [plainSpan []] := by decide
example : parse_inline_formatting "**a*b".data =
    [⟨"a".data, false, true, false, false, false, "default".data⟩, plainSpan "b".data] := by
  decide

example : markdown_to_blocks "#### Deep Title" =
    [Block.heading3 [plainSpan "Deep Title".data]] := by decide
example : markdown_to_blocks "# Top" = [] := by decide
example : markdown_to_blocks "- [x] done" =
    [Block.toDo [plainSpan "done".data] true] := by decide
example : markdown_to_notion_blocks "- [x] done" = [] := by decide
example : markdown_to_blocks "1. first" =
    [Block.numbered [plainSpan "first".data]] := by decide
example : markdown_to_notion_blocks "1. first" =
    [Block.paragraph [plainSpan "1. first".data]] := by decide
example : markdown_to_blocks "|a|\n|b|\n|c|" =
    [Block.code ["|a|\n|b|\n|c|".data] ptLang] := by decide
example : markdown_to_blocks "|a|\n\n|b|" =
    [Block.code ["|a|".data] ptLang, Block.code ["|b|".data] ptLang] := by decide
example : markdown_to_blocks "```ruby\nputs 1\n```" =
    [Block.code ["puts 1".data] "ruby".data] := by decide
example : markdown_to_notion_blocks "```ruby\nputs 1\n```" =
    [Block.code ["puts 1".data] ptLang] := by decide
example : markdown_to_blocks "```python\nx = 1\n```" =
    [Block.code ["x = 1".data] "python".data] := by decide
example : markdown_to_blocks "```\nx\n" = [Block.code ["x\n".data] ptLang] := by decide
example : markdown_to_blocks "---" = [Block.divider] := by decide
example : markdown_to_blocks "----" = [Block.paragraph [plainSpan "----".data]] := by decide
example : markdown_to_blocks "> q" = [Block.quote [plainSpan "q".data]] := by decide
example : markdown_to_blocks "" = [] := by decide

/-! ### Fuel sufficiency -/

theorem length_dropWhile_drop_le (p : Char → Bool) (l : List Char) (n : Nat) :
    ((l.dropWhile p).drop n).length ≤ l.length := by
  have h := (List.dropWhile_sublist (l := l) p).length_le
  simp only [List.length_drop]
  omega

theorem findPartsF_nil (f : Nat) : findPartsF f [] = [] := by
  cases f <;> rfl

theorem findPartsF_congr :
    ∀ f g (l : List Char), l.length ≤ f → l.length ≤ g → findPartsF f l = findPartsF g l := by
  intro f
  induction f with
  | zero =>
    intro g l hf _
    have : l = [] := List.eq_nil_of_length_eq_zero (Nat.le_zero.mp hf)
    subst this
    rw [findPartsF_nil, findPartsF_nil]
  | succ f ih =>
    intro g l hf hg
    cases l with
    | nil => rw [findPartsF_nil, findPartsF_nil]
    | cons c rest =>
      cases g with
      | zero => simp at hg
      | succ g =>
        have hr : rest.length ≤ f := by simp at hf; omega
        have hrg : rest.length ≤ g := by simp at hg; omega
        have key : ∀ a : List Char, a.length ≤ rest.length →
            findPartsF f a = findPartsF g a := fun a ha =>
          ih g a (le_trans ha hr) (le_trans ha hrg)
        simp only [findPartsF]
        split_ifs <;>
          first
            | rfl
            | exact key rest le_rfl
            | exact congrArg _ (key rest le_rfl)
            | exact congrArg _ (key _ ((List.dropWhile_sublist _).length_le))
            | exact congrArg _ (key _ (length_dropWhile_drop_le _ _ _))
            | exact congrArg _ (key _ (le_trans (length_dropWhile_drop_le _ _ _)
                (by simp only [List.length_tail]; omega)))

theorem findParts_cons_plain (c : Char) (rest : List Char) (h : isPlainChar c = true) :
    findParts (c :: rest) =
      (c :: rest.takeWhile isPlainChar) :: findParts (rest.dropWhile isPlainChar) := by
  simp only [isPlainChar, Bool.and_eq_true, decide_eq_true_eq] at h
  obtain ⟨⟨hc, hs⟩, hu⟩ := h
  show findPartsF (rest.length + 1) (c :: rest) = _
  simp only [findPartsF, if_neg hc, if_neg hs, if_neg hu]
  exact congrArg _ (findPartsF_congr _ _ _ ((List.dropWhile_sublist _).length_le) le_rfl)

theorem length_dropWhile_drop_le2 (p : List Char → Bool) (l : List (List Char)) (n : Nat) :
    ((l.dropWhile p).drop n).length ≤ l.length := by
  have h := (List.dropWhile_sublist (l := l) p).length_le
  simp only [List.length_drop]
  omega

set_option maxHeartbeats 1000000 in
theorem convClientAux_some :
    ∀ f g (ls : List (List Char)), ls.length < f → ls.length < g →
      ∃ bs, convClientAux f ls = some bs ∧ convClientAux g ls = some bs := by
  intro f
  induction f with
  | zero => intro g ls hf _; omega
  | succ f ih =>
    intro g ls hf hg
    cases ls with
    | nil =>
      cases g with
      | zero => omega
      | succ g => exact ⟨[], rfl, rfl⟩
    | cons line rest =>
      cases g with
      | zero => omega
      | succ g =>
        have hr : rest.length < f := by simp only [List.length_cons] at hf; omega
        have hrg : rest.length < g := by simp only [List.length_cons] at hg; omega
        have key : ∀ a : List (List Char), a.length ≤ rest.length →
            ∃ bs, convClientAux f a = some bs ∧ convClientAux g a = some bs := fun a ha =>
          ih g a (lt_of_le_of_lt ha hr) (lt_of_le_of_lt ha hrg)
        have keyMap : ∀ (a : List (List Char)), a.length ≤ rest.length →
            ∀ (gf : List Block → List Block),
            ∃ bs, (convClientAux f a).map gf = some bs ∧
              (convClientAux g a).map gf = some bs := by
          intro a ha gf
          obtain ⟨bs, h1, h2⟩ := key a ha
          exact ⟨gf bs, by rw [h1]; rfl, by rw [h2]; rfl⟩
        rw [convClientAux.eq_def, convClientAux.eq_def]
        dsimp only []
        by_cases c1 : (pyStrip line).isEmpty = true
        · rw [if_pos c1, if_pos c1]; exact key rest le_rfl
        rw [if_neg c1, if_neg c1]
        by_cases c2 : pyStartsWith line ['#', ' '] = true
        · rw [if_pos c2, if_pos c2]; exact key rest le_rfl
        rw [if_neg c2, if_neg c2]
        by_cases c3 : pyStartsWith line ['#', '#', ' '] = true
        · rw [if_pos c3, if_pos c3]; exact keyMap rest le_rfl _
        rw [if_neg c3, if_neg c3]
        by_cases c4 : pyStartsWith line ['#', '#', '#', ' '] = true
        · rw [if_pos c4, if_pos c4]; exact keyMap rest le_rfl _
        rw [if_neg c4, if_neg c4]
        by_cases c5 : pyStartsWith line ['#', '#', '#', '#', ' '] = true
        · rw [if_pos c5, if_pos c5]; exact keyMap rest le_rfl _
        rw [if_neg c5, if_neg c5]
        by_cases c6 : pyStrip line = ['-', '-', '-']
        · rw [if_pos c6, if_pos c6]; exact keyMap rest le_rfl _
        rw [if_neg c6, if_neg c6]
        by_cases c7 : pyStartsWith line ['>', ' '] = true
        · rw [if_pos c7, if_pos c7]; exact keyMap rest le_rfl _
        rw [if_neg c7, if_neg c7]
        by_cases c8 : (pyStartsWith line ['-', ' ', '[', ' ', ']', ' '] ||
            pyStartsWith line ['-', ' ', '[', 'x', ']', ' ']) = true
        · rw [if_pos c8, if_pos c8]; exact keyMap rest le_rfl _
        rw [if_neg c8, if_neg c8]
        by_cases c9 : (pyStartsWith line ['-', ' '] || pyStartsWith line ['*', ' ']) = true
        · rw [if_pos c9, if_pos c9]; exact keyMap rest le_rfl _
        rw [if_neg c9, if_neg c9]
        by_cases c10 : numberedMatch line = true
        · rw [if_pos c10, if_pos c10]; exact keyMap rest le_rfl _
        rw [if_neg c10, if_neg c10]
        by_cases c11 : pyStartsWith line ['|'] = true
        · rw [if_pos c11, if_pos c11]
          exact keyMap _ ((List.dropWhile_sublist _).length_le) _
        rw [if_neg c11, if_neg c11]
        by_cases c12 : pyStartsWith line ['`', '`', '`'] = true
        · rw [if_pos c12, if_pos c12]
          exact keyMap _ (length_dropWhile_drop_le2 _ _ _) _
        rw [if_neg c12, if_neg c12]
        exact keyMap rest le_rfl _


set_option maxHeartbeats 1000000 in
theorem convSyncAux_some :
    ∀ f g (ls : List (List Char)), ls.length < f → ls.length < g →
      ∃ bs, convSyncAux f ls = some bs ∧ convSyncAux g ls = some bs := by
  intro f
  induction f with
  | zero => intro g ls hf _; omega
  | succ f ih =>
    intro g ls hf hg
    cases ls with
    | nil =>
      cases g with
      | zero => omega
      | succ g => exact ⟨[], rfl, rfl⟩
    | cons line rest =>
      cases g with
      | zero => omega
      | succ g =>
        have hr : rest.length < f := by simp only [List.length_cons] at hf; omega
        have hrg : rest.length < g := by simp only [List.length_cons] at hg; omega
        have key : ∀ a : List (List Char), a.length ≤ rest.length →
            ∃ bs, convSyncAux f a = some bs ∧ convSyncAux g a = some bs := fun a ha =>
          ih g a (lt_of_le_of_lt ha hr) (lt_of_le_of_lt ha hrg)
        have keyMap : ∀ (a : List (List Char)), a.length ≤ rest.length →
            ∀ (gf : List Block → List Block),
            ∃ bs, (convSyncAux f a).map gf = some bs ∧
              (convSyncAux g a).map gf = some bs := by
          intro a ha gf
          obtain ⟨bs, h1, h2⟩ := key a ha
          exact ⟨gf bs, by rw [h1]; rfl, by rw [h2]; rfl⟩
        rw [convSyncAux.eq_def, convSyncAux.eq_def]
        dsimp only []
        by_cases c1 : (pyStrip line).isEmpty = true
        · rw [if_pos c1, if_pos c1]; exact key rest le_rfl
        rw [if_neg c1, if_neg c1]
        by_cases c2 : pyStartsWith line ['#', ' '] = true
        · rw [if_pos c2, if_pos c2]; exact key rest le_rfl
        rw [if_neg c2, if_neg c2]
        by_cases c3 : pyStartsWith line ['#', '#', ' '] = true
        · rw [if_pos c3, if_pos c3]; exact keyMap rest le_rfl _
        rw [if_neg c3, if_neg c3]
        by_cases c4 : pyStartsWith line ['#', '#', '#', ' '] = true
        · rw [if_pos c4, if_pos c4]; exact keyMap rest le_rfl _
        rw [if_neg c4, if_neg c4]
        by_cases c5 : pyStartsWith line ['#', '#', '#', '#', ' '] = true
        · rw [if_pos c5, if_pos c5]; exact keyMap rest le_rfl _
        rw [if_neg c5, if_neg c5]
        by_cases c6 : pyStrip line = ['-', '-', '-']
        · rw [if_pos c6, if_pos c6]; exact keyMap rest le_rfl _
        rw [if_neg c6, if_neg c6]
        by_cases c7 : pyStartsWith line ['>', ' '] = true
        · rw [if_pos c7, if_pos c7]; exact keyMap rest le_rfl _
        rw [if_neg c7, if_neg c7]
        by_cases c9 : (pyStartsWith line ['-', ' '] || pyStartsWith line ['*', ' ']) = true
        · rw [if_pos c9, if_pos c9]; exact keyMap rest le_rfl _
        rw [if_neg c9, if_neg c9]
        by_cases c8 : (pyStartsWith line ['-', ' ', '[', ' ', ']', ' '] ||
            pyStartsWith line ['-', ' ', '[', 'x', ']', ' ']) = true
        · rw [if_pos c8, if_pos c8]; exact keyMap rest le_rfl _
        rw [if_neg c8, if_neg c8]
        by_cases c11 : pyStartsWith line ['|'] = true
        · rw [if_pos c11, if_pos c11]
          exact keyMap _ ((List.dropWhile_sublist _).length_le) _
        rw [if_neg c11, if_neg c11]
        by_cases c12 : pyStartsWith line ['`', '`', '`'] = true
        · rw [if_pos c12, if_pos c12]
          exact keyMap _ (length_dropWhile_drop_le2 _ _ _) _
        rw [if_neg c12, if_neg c12]
        exact keyMap rest le_rfl _


theorem convClientAux_eq_some (f : Nat) (ls : List (List Char)) (h : ls.length < f) :
    convClientAux f ls = some (convertClient ls) := by
  obtain ⟨bs, h1, h2⟩ := convClientAux_some f (ls.length + 1) ls h (Nat.lt_succ_self _)
  rw [convertClient, h2, h1]
  rfl

theorem convSyncAux_eq_some (f : Nat) (ls : List (List Char)) (h : ls.length < f) :
    convSyncAux f ls = some (convertSync ls) := by
  obtain ⟨bs, h1, h2⟩ := convSyncAux_some f (ls.length + 1) ls h (Nat.lt_succ_self _)
  rw [convertSync, h2, h1]
  rfl

theorem convertClient_cons (l : List Char) (rest : List (List Char)) :
    convertClient (l :: rest) = (convClientAux (rest.length + 1 + 1) (l :: rest)).getD [] :=
  rfl

/-! ### Properties of the inline parser -/

/-- The fallback branch guarantees the result of `parse_inline_formatting` is
never the empty list. -/
theorem parse_inline_ne_nil (text : List Char) : parse_inline_formatting text ≠ [] := by
  rw [parse_inline_formatting]
  split_ifs with h
  · exact List.cons_ne_nil _ _
  · exact List.isEmpty_eq_false.mp (Bool.not_eq_true _ ▸ Bool.of_not_eq_true h)

/-- Every branch of `classifyPart` truncates its content with `[:2000]`. -/
theorem classifyPart_content_le (part : List Char) :
    (classifyPart part).content.length ≤ 2000 := by
  rw [classifyPart]
  split_ifs <;> exact List.length_take_le _ _

/-- Every span produced by `parse_inline_formatting` has content of at most
2000 characters. -/
theorem parse_inline_content_le (text : List Char) :
    ∀ s ∈ parse_inline_formatting text, s.content.length ≤ 2000 := by
  intro s hs
  rw [parse_inline_formatting] at hs
  split_ifs at hs with h
  · rw [List.mem_singleton] at hs
    subst hs
    exact List.length_take_le _ _
  · obtain ⟨part, _, hpart⟩ := List.mem_map.mp hs
    subst hpart
    exact classifyPart_content_le part

/-- On a wholly delimiter-free nonempty text the regex scan produces a single
part, namely the text itself. -/
theorem findParts_all_plain (c : Char) (rest : List Char)
    (hc : isPlainChar c = true) (hrest : ∀ x ∈ rest, isPlainChar x = true) :
    findParts (c :: rest) = [c :: rest] := by
  rw [findParts_cons_plain c rest hc]
  have htw : rest.takeWhile isPlainChar = rest := by
    rw [List.takeWhile_eq_self_iff]
    exact hrest
  have hdw : rest.dropWhile isPlainChar = [] := by
    rw [List.dropWhile_eq_nil_iff]
    exact hrest
  rw [htw, hdw]
  rfl

/-- On a wholly delimiter-free text `parse_inline_formatting` yields exactly
one plain span holding the text truncated to 2000 characters. -/
theorem parse_inline_all_plain (text : List Char)
    (h : ∀ x ∈ text, isPlainChar x = true) :
    parse_inline_formatting text = [plainSpan (text.take 2000)] := by
  cases text with
  | nil => rfl
  | cons c rest =>
    have hc : isPlainChar c = true := h c (List.mem_cons_self c rest)
    have hrest : ∀ x ∈ rest, isPlainChar x = true := fun x hx =>
      h x (List.mem_cons_of_mem c hx)
    rw [parse_inline_formatting, findParts_all_plain c rest hc hrest]
    have hcl : classifyPart (c :: rest) = plainSpan ((c :: rest).take 2000) := by
      simp only [isPlainChar, Bool.and_eq_true, decide_eq_true_eq] at hc
      obtain ⟨⟨h1, h2⟩, h3⟩ := hc
      rw [classifyPart]
      rw [if_neg, if_neg, if_neg]
      · simp [pyStartsWith, h2, h3]
      · simp [pyStartsWith, h2]
      · simp [pyStartsWith, h1]
    simp [hcl]

/-- Both block-level invariants for a span list coming from
`parse_inline_formatting`: non-emptiness and 2000-character truncation. -/
theorem pif_block_facts (t : List Char) :
    (!(parse_inline_formatting t).isEmpty) = true ∧
      ((parse_inline_formatting t).all fun s => decide (s.content.length ≤ 2000)) = true := by
  constructor
  · simp only [Bool.not_eq_true']
    exact List.isEmpty_eq_false.mpr (parse_inline_ne_nil t)
  · rw [List.all_eq_true]
    intro s hs
    rw [decide_eq_true_eq]
    exact parse_inline_content_le t s hs

set_option maxHeartbeats 1000000 in
theorem convClientAux_blocks_ok :
    ∀ f (ls : List (List Char)) (bs : List Block), convClientAux f ls = some bs →
      ∀ b ∈ bs, richNonEmpty b = true ∧ blockLe2000 b = true := by
  intro f
  induction f with
  | zero => intro ls bs h; exact absurd h (by rw [convClientAux.eq_def]; simp)
  | succ f ih =>
    intro ls bs h
    cases ls with
    | nil =>
      rw [convClientAux.eq_def] at h
      dsimp only [] at h
      obtain rfl : ([] : List Block) = bs := Option.some.inj h
      intro b hb
      exact absurd hb (List.not_mem_nil b)
    | cons line rest =>
      rw [convClientAux.eq_def] at h
      dsimp only [] at h
      have hmap : ∀ (a : List (List Char)) (blk : Block),
          richNonEmpty blk = true ∧ blockLe2000 blk = true →
          (convClientAux f a).map (blk :: ·) = some bs →
          ∀ b ∈ bs, richNonEmpty b = true ∧ blockLe2000 b = true := by
        intro a blk hblk hm b hb
        obtain ⟨bs2, hrec, hcons⟩ := Option.map_eq_some'.mp hm
        subst hcons
        rcases List.mem_cons.mp hb with hb | hb
        · subst hb; exact hblk
        · exact ih a bs2 hrec b hb
      by_cases c1 : (pyStrip line).isEmpty = true
      · rw [if_pos c1] at h; exact ih rest bs h
      rw [if_neg c1] at h
      by_cases c2 : pyStartsWith line ['#', ' '] = true
      · rw [if_pos c2] at h; exact ih rest bs h
      rw [if_neg c2] at h
      by_cases c3 : pyStartsWith line ['#', '#', ' '] = true
      · rw [if_pos c3] at h
        refine hmap rest _ ?_ h
        exact ⟨(pif_block_facts _).1, (pif_block_facts _).2⟩
      rw [if_neg c3] at h
      by_cases c4 : pyStartsWith line ['#', '#', '#', ' '] = true
      · rw [if_pos c4] at h
        refine hmap rest _ ?_ h
        exact ⟨(pif_block_facts _).1, (pif_block_facts _).2⟩
      rw [if_neg c4] at h
      by_cases c5 : pyStartsWith line ['#', '#', '#', '#', ' '] = true
      · rw [if_pos c5] at h
        refine hmap rest _ ?_ h
        exact ⟨(pif_block_facts _).1, (pif_block_facts _).2⟩
      rw [if_neg c5] at h
      by_cases c6 : pyStrip line = ['-', '-', '-']
      · rw [if_pos c6] at h
        refine hmap rest _ ?_ h
        exact ⟨rfl, rfl⟩
      rw [if_neg c6] at h
      by_cases c7 : pyStartsWith line ['>', ' '] = true
      · rw [if_pos c7] at h
        refine hmap rest _ ?_ h
        exact ⟨(pif_block_facts _).1, (pif_block_facts _).2⟩
      rw [if_neg c7] at h
      by_cases c8 : (pyStartsWith line ['-', ' ', '[', ' ', ']', ' '] ||
          pyStartsWith line ['-', ' ', '[', 'x', ']', ' ']) = true
      · rw [if_pos c8] at h
        refine hmap rest _ ?_ h
        exact ⟨(pif_block_facts _).1, (pif_block_facts _).2⟩
      rw [if_neg c8] at h
      by_cases c9 : (pyStartsWith line ['-', ' '] || pyStartsWith line ['*', ' ']) = true
      · rw [if_pos c9] at h
        refine hmap rest _ ?_ h
        exact ⟨(pif_block_facts _).1, (pif_block_facts _).2⟩
      rw [if_neg c9] at h
      by_cases c10 : numberedMatch line = true
      · rw [if_pos c10] at h
        refine hmap rest _ ?_ h
        exact ⟨(pif_block_facts _).1, (pif_block_facts _).2⟩
      rw [if_neg c10] at h
      by_cases c11 : pyStartsWith line ['|'] = true
      · rw [if_pos c11] at h
        refine hmap _ _ ?_ h
        refine ⟨rfl, ?_⟩
        simp only [blockLe2000, List.all_cons, List.all_nil, Bool.and_true,
          decide_eq_true_eq]
        exact List.length_take_le _ _
      rw [if_neg c11] at h
      by_cases c12 : pyStartsWith line ['`', '`', '`'] = true
      · rw [if_pos c12] at h
        refine hmap _ _ ?_ h
        refine ⟨rfl, ?_⟩
        simp only [blockLe2000, List.all_cons, List.all_nil, Bool.and_true,
          decide_eq_true_eq]
        exact List.length_take_le _ _
      rw [if_neg c12] at h
      obtain ⟨bs2, hrec, hcons⟩ := Option.map_eq_some'.mp h
      rw [if_neg c1] at hcons
      subst hcons
      intro b hb
      rcases List.mem_cons.mp hb with hb | hb
      · subst hb
        exact ⟨(pif_block_facts _).1, (pif_block_facts _).2⟩
      · exact ih rest bs2 hrec b hb

/-! ### Agreement of the two converters away from their differing branches -/

theorem pyStartsWith_append_false :
    ∀ (l p q : List Char), pyStartsWith l p = false → pyStartsWith l (p ++ q) = false := by
  intro l p q h
  induction p generalizing l with
  | nil => rw [pyStartsWith] at h; cases h
  | cons a as ih =>
    cases l with
    | nil => rfl
    | cons c cl =>
      rw [List.cons_append, pyStartsWith]
      rw [pyStartsWith] at h
      cases hca : c == a with
      | false => rw [Bool.false_and]
      | true =>
        rw [hca, Bool.true_and] at h
        rw [Bool.true_and]
        exact ih cl h

set_option maxHeartbeats 1000000 in
theorem convAuxes_agree :
    ∀ f (ls : List (List Char)), (∀ l ∈ ls, lineNeutral l = true) →
      convClientAux f ls = convSyncAux f ls := by
  intro f
  induction f with
  | zero => intro ls _; rfl
  | succ f ih =>
    intro ls hls
    cases ls with
    | nil => rfl
    | cons line rest =>
      have hline := hls line (List.mem_cons_self line rest)
      simp only [lineNeutral, Bool.and_eq_true, Bool.not_eq_true'] at hline
      obtain ⟨⟨⟨hb1, hb2⟩, hn⟩, hf3⟩ := hline
      have hrest : ∀ l ∈ rest, lineNeutral l = true := fun l hl =>
        hls l (List.mem_cons_of_mem line hl)
      have ncb : ¬ ((pyStartsWith line ['-', ' ', '[', ' ', ']', ' '] ||
          pyStartsWith line ['-', ' ', '[', 'x', ']', ' ']) = true) := by
        have e1 : pyStartsWith line ['-', ' ', '[', ' ', ']', ' '] = false :=
          pyStartsWith_append_false line ['-', ' '] ['[', ' ', ']', ' '] hb1
        have e2 : pyStartsWith line ['-', ' ', '[', 'x', ']', ' '] = false :=
          pyStartsWith_append_false line ['-', ' '] ['[', 'x', ']', ' '] hb1
        simp [e1, e2]
      have nbul : ¬ ((pyStartsWith line ['-', ' '] || pyStartsWith line ['*', ' ']) = true) := by
        simp [hb1, hb2]
      have nnum : ¬ (numberedMatch line = true) := by simp [hn]
      have nfence : ¬ (pyStartsWith line ['`', '`', '`'] = true) := by simp [hf3]
      rw [convClientAux.eq_def, convSyncAux.eq_def]
      dsimp only []
      by_cases c1 : (pyStrip line).isEmpty = true
      · rw [if_pos c1, if_pos c1]; exact ih rest hrest
      rw [if_neg c1, if_neg c1]
      by_cases c2 : pyStartsWith line ['#', ' '] = true
      · rw [if_pos c2, if_pos c2]; exact ih rest hrest
      rw [if_neg c2, if_neg c2]
      by_cases c3 : pyStartsWith line ['#', '#', ' '] = true
      · rw [if_pos c3, if_pos c3, ih rest hrest]
      rw [if_neg c3, if_neg c3]
      by_cases c4 : pyStartsWith line ['#', '#', '#', ' '] = true
      · rw [if_pos c4, if_pos c4, ih rest hrest]
      rw [if_neg c4, if_neg c4]
      by_cases c5 : pyStartsWith line ['#', '#', '#', '#', ' '] = true
      · rw [if_pos c5, if_pos c5, ih rest hrest]
      rw [if_neg c5, if_neg c5]
      by_cases c6 : pyStrip line = ['-', '-', '-']
      · rw [if_pos c6, if_pos c6, ih rest hrest]
      rw [if_neg c6, if_neg c6]
      by_cases c7 : pyStartsWith line ['>', ' '] = true
      · rw [if_pos c7, if_pos c7, ih rest hrest]
      rw [if_neg c7, if_neg c7]
      rw [if_neg ncb, if_neg nbul, if_neg nnum]
      rw [if_neg nbul, if_neg ncb]
      by_cases c11 : pyStartsWith line ['|'] = true
      · rw [if_pos c11, if_pos c11]
        rw [ih (rest.dropWhile fun l => pyStartsWith l ['|']) (fun l hl =>
          hrest l (List.Sublist.mem hl (List.dropWhile_sublist _)))]
      rw [if_neg c11, if_neg c11]
      rw [if_neg nfence, if_neg nfence]
      rw [ih rest hrest]

/-! ### Shape lemmas for branch selection -/

theorem pyStartsWith_cons_ne (c p : Char) (l ps : List Char) (h : c ≠ p) :
    pyStartsWith (c :: l) (p :: ps) = false := by
  rw [pyStartsWith, beq_eq_false_iff_ne.mpr h, Bool.false_and]

theorem pyStartsWith_shape (l : List Char) (p : Char) (ps : List Char)
    (h : pyStartsWith l (p :: ps) = true) :
    ∃ u, l = p :: u ∧ pyStartsWith u ps = true := by
  cases l with
  | nil => cases h
  | cons c cl =>
    rw [pyStartsWith, Bool.and_eq_true] at h
    exact ⟨cl, by rw [beq_iff_eq.mp h.1], h.2⟩

theorem pyStrip_cons_shape (c : Char) (l : List Char) (h : isPySpace c = false) :
    ∃ t, pyStrip (c :: l) = c :: t := by
  rw [pyStrip]
  rw [List.dropWhile_cons_of_neg (by rw [h]; exact Bool.false_ne_true)]
  rw [List.reverse_cons, List.dropWhile_append]
  by_cases he : (l.reverse.dropWhile isPySpace).isEmpty
  · rw [if_pos he]
    rw [List.dropWhile_cons_of_neg (by rw [h]; exact Bool.false_ne_true)]
    exact ⟨[], by simp⟩
  · rw [if_neg he]
    exact ⟨(l.reverse.dropWhile isPySpace).reverse, by simp⟩

theorem numberedMatch_cons_not_digit (c : Char) (l : List Char) (h : c.isDigit = false) :
    numberedMatch (c :: l) = false := by
  rw [numberedMatch]
  rw [List.takeWhile_cons_of_neg (by rw [h]; exact Bool.false_ne_true)]
  rfl

/-- Unfolding of the table branch of `markdown_to_blocks`: a line starting
with `|` opens a run that captures the immediately following `|`-lines. -/
theorem convertClient_table (t : List Char) (rest : List (List Char)) :
    convertClient (('|' :: t) :: rest) =
      Block.code
          [(joinNL (('|' :: t) :: rest.takeWhile fun l => pyStartsWith l ['|'])).take 2000]
          ptLang ::
        convertClient (rest.dropWhile fun l => pyStartsWith l ['|']) := by
  obtain ⟨u, hu⟩ := pyStrip_cons_shape '|' t (by decide)
  have n1 : ¬ ((pyStrip ('|' :: t)).isEmpty = true) := by rw [hu]; simp
  have n2 : ¬ (pyStartsWith ('|' :: t) ['#', ' '] = true) := by
    rw [pyStartsWith_cons_ne _ _ _ _ (by decide)]; simp
  have n3 : ¬ (pyStartsWith ('|' :: t) ['#', '#', ' '] = true) := by
    rw [pyStartsWith_cons_ne _ _ _ _ (by decide)]; simp
  have n4 : ¬ (pyStartsWith ('|' :: t) ['#', '#', '#', ' '] = true) := by
    rw [pyStartsWith_cons_ne _ _ _ _ (by decide)]; simp
  have n5 : ¬ (pyStartsWith ('|' :: t) ['#', '#', '#', '#', ' '] = true) := by
    rw [pyStartsWith_cons_ne _ _ _ _ (by decide)]; simp
  have n6 : ¬ (pyStrip ('|' :: t) = ['-', '-', '-']) := by
    rw [hu]; intro h; exact absurd (List.cons.inj h).1 (by decide)
  have n7 : ¬ (pyStartsWith ('|' :: t) ['>', ' '] = true) := by
    rw [pyStartsWith_cons_ne _ _ _ _ (by decide)]; simp
  have n8 : ¬ ((pyStartsWith ('|' :: t) ['-', ' ', '[', ' ', ']', ' '] ||
      pyStartsWith ('|' :: t) ['-', ' ', '[', 'x', ']', ' ']) = true) := by
    rw [pyStartsWith_cons_ne _ _ _ _ (by decide),
      pyStartsWith_cons_ne _ _ _ _ (by decide)]
    simp
  have n9 : ¬ ((pyStartsWith ('|' :: t) ['-', ' '] ||
      pyStartsWith ('|' :: t) ['*', ' ']) = true) := by
    rw [pyStartsWith_cons_ne _ _ _ _ (by decide),
      pyStartsWith_cons_ne _ _ _ _ (by decide)]
    simp
  have n10 : ¬ (numberedMatch ('|' :: t) = true) := by
    rw [numberedMatch_cons_not_digit _ _ (by decide)]; simp
  have p11 : pyStartsWith ('|' :: t) ['|'] = true := by
    rw [pyStartsWith]; simp [pyStartsWith]
  rw [convertClient_cons, convClientAux.eq_def]
  dsimp only []
  rw [if_neg n1, if_neg n2, if_neg n3, if_neg n4, if_neg n5, if_neg n6, if_neg n7,
    if_neg n8, if_neg n9, if_neg n10, if_pos p11]
  rw [convClientAux_eq_some _ _ (Nat.lt_succ_of_le (List.dropWhile_sublist _).length_le)]
  rfl

/-- Unfolding of the fenced-code branch of `markdown_to_blocks`: a line
starting with three backticks opens a code run captured up to the next fence
line, with the language tag checked against `clientLangs`. -/
theorem convertClient_fence (t : List Char) (rest : List (List Char)) :
    convertClient (('`' :: '`' :: '`' :: t) :: rest) =
      Block.code
          [(joinNL (rest.takeWhile fun l => !pyStartsWith l ['`', '`', '`'])).take 2000]
          (if clientLangs.contains
              (if (pyStrip t).isEmpty = true then ptLang else pyStrip t) = true
           then (if (pyStrip t).isEmpty = true then ptLang else pyStrip t)
           else ptLang) ::
        convertClient ((rest.dropWhile fun l => !pyStartsWith l ['`', '`', '`']).drop 1) := by
  obtain ⟨u, hu⟩ := pyStrip_cons_shape '`' ('`' :: '`' :: t) (by decide)
  have n1 : ¬ ((pyStrip ('`' :: '`' :: '`' :: t)).isEmpty = true) := by rw [hu]; simp
  have n2 : ¬ (pyStartsWith ('`' :: '`' :: '`' :: t) ['#', ' '] = true) := by
    rw [pyStartsWith_cons_ne _ _ _ _ (by decide)]; simp
  have n3 : ¬ (pyStartsWith ('`' :: '`' :: '`' :: t) ['#', '#', ' '] = true) := by
    rw [pyStartsWith_cons_ne _ _ _ _ (by decide)]; simp
  have n4 : ¬ (pyStartsWith ('`' :: '`' :: '`' :: t) ['#', '#', '#', ' '] = true) := by
    rw [pyStartsWith_cons_ne _ _ _ _ (by decide)]; simp
  have n5 : ¬ (pyStartsWith ('`' :: '`' :: '`' :: t) ['#', '#', '#', '#', ' '] = true) := by
    rw [pyStartsWith_cons_ne _ _ _ _ (by decide)]; simp
  have n6 : ¬ (pyStrip ('`' :: '`' :: '`' :: t) = ['-', '-', '-']) := by
    rw [hu]; intro h; exact absurd (List.cons.inj h).1 (by decide)
  have n7 : ¬ (pyStartsWith ('`' :: '`' :: '`' :: t) ['>', ' '] = true) := by
    rw [pyStartsWith_cons_ne _ _ _ _ (by decide)]; simp
  have n8 : ¬ ((pyStartsWith ('`' :: '`' :: '`' :: t) ['-', ' ', '[', ' ', ']', ' '] ||
      pyStartsWith ('`' :: '`' :: '`' :: t) ['-', ' ', '[', 'x', ']', ' ']) = true) := by
    rw [pyStartsWith_cons_ne _ _ _ _ (by decide),
      pyStartsWith_cons_ne _ _ _ _ (by decide)]
    simp
  have n9 : ¬ ((pyStartsWith ('`' :: '`' :: '`' :: t) ['-', ' '] ||
      pyStartsWith ('`' :: '`' :: '`' :: t) ['*', ' ']) = true) := by
    rw [pyStartsWith_cons_ne _ _ _ _ (by decide),
      pyStartsWith_cons_ne _ _ _ _ (by decide)]
    simp
  have n10 : ¬ (numberedMatch ('`' :: '`' :: '`' :: t) = true) := by
    rw [numberedMatch_cons_not_digit _ _ (by decide)]; simp
  have n11 : ¬ (pyStartsWith ('`' :: '`' :: '`' :: t) ['|'] = true) := by
    rw [pyStartsWith_cons_ne _ _ _ _ (by decide)]; simp
  have p12 : pyStartsWith ('`' :: '`' :: '`' :: t) ['`', '`', '`'] = true := by
    simp [pyStartsWith]
  rw [convertClient_cons, convClientAux.eq_def]
  dsimp only []
  rw [if_neg n1, if_neg n2, if_neg n3, if_neg n4, if_neg n5, if_neg n6, if_neg n7,
    if_neg n8, if_neg n9, if_neg n10, if_neg n11, if_pos p12]
  rw [convClientAux_eq_some _ _ (Nat.lt_succ_of_le (length_dropWhile_drop_le2 _ _ _))]
  rfl

/-! ### Claim theorems -/

/-- C8: the input line `"#### Deep Title"` converts to a heading-3 block with
text "Deep Title" (level-4 headings are down-mapped to heading-3), and the
input line `"# Top"` produces zero blocks. -/
theorem claim8_heading_collapse :
    markdown_to_blocks "#### Deep Title" = [Block.heading3 [plainSpan "Deep Title".data]] ∧
      markdown_to_blocks "# Top" = [] := by
  constructor <;> decide

/-- C1: in `markdown_to_blocks` the four list rules behave as specified (the
checklist rule precedes the bullet rule, and the numbered prefix is
stripped), but in `markdown_to_notion_blocks` the bullet branch precedes the
checklist branch and silently swallows checklist lines (its checklist branch
is unreachable, contradicting the source comment "they're handled
separately"), and there is no numbered-list branch at all, so `"1. first"`
becomes a paragraph. -/
theorem claim1_list_rules_eval :
    markdown_to_blocks "- [x] done" = [Block.toDo [plainSpan "done".data] true] ∧
      markdown_to_blocks "- [ ] todo" = [Block.toDo [plainSpan "todo".data] false] ∧
      markdown_to_blocks "- plain" = [Block.bulleted [plainSpan "plain".data]] ∧
      markdown_to_blocks "* plain" = [Block.bulleted [plainSpan "plain".data]] ∧
      markdown_to_blocks "1. first" = [Block.numbered [plainSpan "first".data]] ∧
      markdown_to_notion_blocks "- [x] done" = [] ∧
      markdown_to_notion_blocks "- [ ] todo" = [] ∧
      markdown_to_notion_blocks "1. first" =
        [Block.paragraph [plainSpan "1. first".data]] := by
  refine ⟨by decide, by decide, by decide, by decide, by decide, by decide, by decide, by decide⟩

/-- C2 counterexample: the two converters are not extensionally equal; on the
single-line input `"1. first"` they produce different block sequences. -/
theorem claim2_counterexample :
    markdown_to_blocks "1. first" ≠ markdown_to_notion_blocks "1. first" := by
  decide

/-- C2 (amended): the two converters agree on every input none of whose lines
starts with `"- "` or `"* "`, matches the numbered prefix, or starts with a
code fence; they differ on bullet/checklist lines, numbered lines, and fences
tagged go/ruby/java. -/
theorem claim2_amended (md : String)
    (h : ∀ l ∈ splitLines md.data, lineNeutral l = true) :
    markdown_to_blocks md = markdown_to_notion_blocks md := by
  rw [markdown_to_blocks, markdown_to_notion_blocks, convertClient, convertSync,
    convAuxes_agree _ _ h]

/-- C2 witness: a concrete neutral input on which both converters agree. -/
theorem claim2_witness :
    (∀ l ∈ splitLines "## Title\nBody text".data, lineNeutral l = true) ∧
      markdown_to_blocks "## Title\nBody text" =
        markdown_to_notion_blocks "## Title\nBody text" :=
  ⟨by decide, claim2_amended "## Title\nBody text" (by decide)⟩

/-- C3 counterexample: the sample input parses to six spans, not five, and on
the input `"x*y"` (an unpaired delimiter) the parser emits two adjacent plain
spans, refuting the universal no-adjacent-plain-spans clause. -/
theorem claim3_counterexample :
    ¬ ((parse_inline_formatting "Hello **bold** and `code` and *italic*".data).length = 5) ∧
      parse_inline_formatting "x*y".data = [plainSpan "x".data, plainSpan "y".data] ∧
      hasAdjacentPlain (parse_inline_formatting "x*y".data) = true := by
  refine ⟨by decide, by decide, by decide⟩

/-- C3 (amended): the sample input parses to exactly the six listed spans
with those exact run boundaries and no two adjacent plain spans among them;
in general adjacent plain spans can occur around an unpaired delimiter. -/
theorem claim3_amended :
    parse_inline_formatting "Hello **bold** and `code` and *italic*".data =
      [plainSpan "Hello ".data,
       ⟨"bold".data, true, false, false, false, false, "default".data⟩,
       plainSpan " and ".data,
       ⟨"code".data, false, false, true, false, false, "default".data⟩,
       plainSpan " and ".data,
       ⟨"italic".data, false, true, false, false, false, "default".data⟩] ∧
      hasAdjacentPlain
        (parse_inline_formatting "Hello **bold** and `code` and *italic*".data) = false := by
  refine ⟨by decide, by decide⟩

/-- C4: the converter's scan loop terminates within `#lines + 1` iterations
on every input (the fuel-indexed model returns `some`), and inputs with no
failure mode of their own — the empty string and an unterminated code fence —
still convert to a block list. -/
theorem claim4_total :
    (∀ md : String,
        convClientAux ((splitLines md.data).length + 1) (splitLines md.data) =
          some (markdown_to_blocks md)) ∧
      markdown_to_blocks "```python\nx = 1" = [Block.code ["x = 1".data] "python".data] ∧
      markdown_to_blocks "" = [] := by
  refine ⟨fun md => ?_, by decide, by decide⟩
  rw [markdown_to_blocks]
  exact convClientAux_eq_some _ _ (Nat.lt_succ_self _)

/-- C4 witness: the fuel bound evaluated on a concrete two-line input. -/
theorem claim4_witness :
    convClientAux ((splitLines "a\nb".data).length + 1) (splitLines "a\nb".data) =
      some (markdown_to_blocks "a\nb") :=
  claim4_total.1 "a\nb"

/-- C5: every block produced by `markdown_to_blocks` carries a non-empty
rich-text list (the parser's fallback rule turns an otherwise empty span list
into one plain span). -/
theorem claim5_nonempty_rich :
    ∀ (md : String), ∀ b ∈ markdown_to_blocks md, richNonEmpty b = true := by
  intro md b hb
  have h := convClientAux_eq_some ((splitLines md.data).length + 1) (splitLines md.data)
    (Nat.lt_succ_self _)
  exact (convClientAux_blocks_ok _ _ _ h b hb).1

/-- C5 witness: the invariant evaluated on a block of a concrete conversion. -/
theorem claim5_witness : richNonEmpty (Block.paragraph [plainSpan "hi".data]) = true :=
  claim5_nonempty_rich "hi" (Block.paragraph [plainSpan "hi".data]) (by decide)

/-- C6: every span content and every code-block body in the output of
`markdown_to_blocks` has length at most 2000, and content longer than 2000
characters is truncated to exactly 2000 characters (shown on a 2500-character
delimiter-free text, whose single span holds exactly 2000 characters); no
error is raised (the converter is total, see C4). -/
theorem claim6_truncation :
    (∀ (md : String), ∀ b ∈ markdown_to_blocks md, blockLe2000 b = true) ∧
      parse_inline_formatting (List.replicate 2500 'a') =
        [plainSpan (List.replicate 2000 'a')] ∧
      (List.replicate 2000 'a' : List Char).length = 2000 := by
  refine ⟨fun md b hb => ?_, ?_, List.length_replicate 2000 'a'⟩
  · have h := convClientAux_eq_some ((splitLines md.data).length + 1) (splitLines md.data)
      (Nat.lt_succ_self _)
    exact (convClientAux_blocks_ok _ _ _ h b hb).2
  · rw [parse_inline_all_plain _ (fun x hx => ?_)]
    · rw [List.take_replicate]
      norm_num
    · rw [List.eq_of_mem_replicate hx]
      decide

/-- C6 witness: the bound evaluated on a block of a concrete conversion. -/
theorem claim6_witness : blockLe2000 (Block.paragraph [plainSpan "hi".data]) = true :=
  claim6_truncation.1 "hi" (Block.paragraph [plainSpan "hi".data]) (by decide)

/-- The newline-join of a single line is that line. -/
theorem joinNL_singleton (l : List Char) : joinNL [l] = l := by
  rw [joinNL, List.intercalate, List.intersperse_single, List.flatten, List.flatten]
  exact List.append_nil l

/-- C7 (amended): a maximal run of consecutive `|`-lines converts to exactly
one code block tagged "plain text" whose body is the newline-join of the run
truncated to 2000 characters (verbatim whenever the join is at most 2000
characters); three consecutive `|`-lines yield one code block, two `|`-lines
separated by a blank line yield two. -/
theorem claim7_amended :
    (∀ (l : List Char) (ts rest : List (List Char)),
        pyStartsWith l ['|'] = true →
        (∀ x ∈ ts, pyStartsWith x ['|'] = true) →
        (∀ r, rest.head? = some r → pyStartsWith r ['|'] = false) →
        convertClient (l :: (ts ++ rest)) =
          Block.code [(joinNL (l :: ts)).take 2000] ptLang :: convertClient rest) ∧
      markdown_to_blocks "|a|\n|b|\n|c|" = [Block.code ["|a|\n|b|\n|c|".data] ptLang] ∧
      markdown_to_blocks "|a|\n\n|b|" =
        [Block.code ["|a|".data] ptLang, Block.code ["|b|".data] ptLang] := by
  refine ⟨?_, by decide, by decide⟩
  intro l ts rest hl hts hrest
  obtain ⟨u, hu, -⟩ := pyStartsWith_shape l '|' [] hl
  subst hu
  rw [convertClient_table]
  have htw : (ts ++ rest).takeWhile (fun x => pyStartsWith x ['|']) =
      ts ++ rest.takeWhile (fun x => pyStartsWith x ['|']) :=
    List.takeWhile_append_of_pos hts
  have hdw : (ts ++ rest).dropWhile (fun x => pyStartsWith x ['|']) =
      rest.dropWhile (fun x => pyStartsWith x ['|']) :=
    List.dropWhile_append_of_pos hts
  have hrtw : rest.takeWhile (fun x => pyStartsWith x ['|']) = [] := by
    cases rest with
    | nil => rfl
    | cons r rs =>
      rw [List.takeWhile_cons_of_neg]
      rw [hrest r rfl]
      exact Bool.false_ne_true
  have hrdw : rest.dropWhile (fun x => pyStartsWith x ['|']) = rest := by
    cases rest with
    | nil => rfl
    | cons r rs =>
      rw [List.dropWhile_cons_of_neg]
      rw [hrest r rfl]
      exact Bool.false_ne_true
  rw [htw, hrtw, List.append_nil, hdw, hrdw]

/-- C7 witness: the run statement applied to a singleton run. -/
theorem claim7_witness : convertClient ["|x|".data] = [Block.code ["|x|".data] ptLang] := by
  have h := claim7_amended.1 "|x|".data [] []
    (by decide)
    (fun x hx => absurd hx (List.not_mem_nil x))
    (fun r hr => by cases hr)
  rw [show ("|x|".data :: ([] ++ []) : List (List Char)) = ["|x|".data] from rfl] at h
  rw [h]
  decide

/-- C7 counterexample: the body is not verbatim for a run whose join exceeds
2000 characters — a single line of 2500 `|`-characters yields a code block
whose body is the 2000-character truncation, not the original line. -/
theorem claim7_counterexample :
    convertClient [List.replicate 2500 '|'] =
      [Block.code [List.replicate 2000 '|'] ptLang] ∧
      (List.replicate 2000 '|' : List Char) ≠ List.replicate 2500 '|' := by
  constructor
  · have h2500 : (List.replicate 2500 '|' : List Char) = '|' :: List.replicate 2499 '|' := by
      rw [show (2500 : Nat) = 2499 + 1 by norm_num, List.replicate_succ]
    rw [h2500, convertClient_table]
    rw [List.takeWhile_nil, joinNL_singleton, List.dropWhile_nil]
    rw [← h2500, List.take_replicate]
    norm_num
    rfl
  · intro h
    have := congrArg List.length h
    rw [List.length_replicate, List.length_replicate] at this
    omega

/-- C9: for every fenced code run the emitted block's language tag is the
trimmed text after the opening fence, replaced by "plain text" when that text
is empty or not in the call site's allow-list; a `ruby` fence is downgraded
to "plain text" by `markdown_to_notion_blocks` (whose allow-list excludes
ruby), and a `python` fence is preserved verbatim by both. -/
theorem claim9_language_gate :
    (∀ (l : List Char) (rest : List (List Char)),
        pyStartsWith l ['`', '`', '`'] = true →
        (convertClient (l :: rest)).head? =
          some (Block.code
            [(joinNL (rest.takeWhile fun x => !pyStartsWith x ['`', '`', '`'])).take 2000]
            (if pyStrip (l.drop 3) = [] ∨ pyStrip (l.drop 3) ∉ clientLangs then ptLang
             else pyStrip (l.drop 3)))) ∧
      markdown_to_notion_blocks "```ruby\nputs 1\n```" = [Block.code ["puts 1".data] ptLang] ∧
      markdown_to_blocks "```ruby\nputs 1\n```" = [Block.code ["puts 1".data] "ruby".data] ∧
      markdown_to_blocks "```python\nx = 1\n```" =
        [Block.code ["x = 1".data] "python".data] ∧
      markdown_to_notion_blocks "```python\nx = 1\n```" =
        [Block.code ["x = 1".data] "python".data] := by
  refine ⟨?_, by decide, by decide, by decide, by decide⟩
  intro l rest hl
  obtain ⟨u1, hu1, h1⟩ := pyStartsWith_shape l '`' ['`', '`'] hl
  subst hu1
  obtain ⟨u2, hu2, h2⟩ := pyStartsWith_shape u1 '`' ['`'] h1
  subst hu2
  obtain ⟨u3, hu3, -⟩ := pyStartsWith_shape u2 '`' [] h2
  subst hu3
  rw [convertClient_fence, List.head?_cons]
  rw [show ((('`' :: '`' :: '`' :: u3 : List Char).drop 3) : List Char) = u3 from rfl]
  refine congrArg some ?_
  refine congrArg (Block.code _) ?_
  by_cases he : (pyStrip u3).isEmpty = true
  · have he' : pyStrip u3 = [] := List.isEmpty_iff.mp he
    rw [if_pos he]
    rw [show clientLangs.contains ptLang = false from by decide]
    rw [if_neg (by exact Bool.false_ne_true), if_pos (Or.inl he')]
  · have hne : pyStrip u3 ≠ [] := by
      intro hx
      exact he (List.isEmpty_iff.mpr hx)
    rw [if_neg he]
    by_cases hmem : pyStrip u3 ∈ clientLangs
    · have hc : clientLangs.contains (pyStrip u3) = true := List.elem_iff.mpr hmem
      rw [if_pos hc, if_neg]
      intro hor
      rcases hor with hor | hor
      · exact hne hor
      · exact hor hmem
    · have hc : clientLangs.contains (pyStrip u3) = false := by
        cases hcv : clientLangs.contains (pyStrip u3) with
        | false => rfl
        | true => exact absurd (List.elem_iff.mp hcv) hmem
      rw [hc]
      rw [if_neg (by exact Bool.false_ne_true), if_pos (Or.inr hmem)]

/-- C9 witness: the language formula applied to a concrete unsupported tag. -/
theorem claim9_witness :
    (convertClient ("```ruby2".data :: ["x".data])).head? =
      some (Block.code ["x".data] ptLang) := by
  have h := claim9_language_gate.1 "```ruby2".data ["x".data] (by decide)
  rw [h]
  decide

/-- C10: the inline parser silently drops unpaired delimiters — on `"a*b"`
the concatenated span contents are `"ab"`, not the input, and the two
surrounding fragments come out as two adjacent plain spans — while on any
delimiter-free input the concatenated span contents equal the input
truncated to 2000 characters. -/
theorem claim10_delimiter_loss :
    (spanConcat (parse_inline_formatting "a*b".data) ≠ "a*b".data ∧
      parse_inline_formatting "a*b".data = [plainSpan "a".data, plainSpan "b".data] ∧
      hasAdjacentPlain (parse_inline_formatting "a*b".data) = true) ∧
      ∀ t : List Char, (∀ c ∈ t, isPlainChar c = true) →
        spanConcat (parse_inline_formatting t) = t.take 2000 := by
  refine ⟨⟨by decide, by decide, by decide⟩, fun t ht => ?_⟩
  rw [parse_inline_all_plain t ht]
  rw [spanConcat, List.map_cons, List.map_nil, List.flatten]
  rw [List.flatten, List.append_nil]
  rfl

/-- C10 witness: the delimiter-free clause applied to a concrete input. -/
theorem claim10_witness :
    (∀ c ∈ "hi".data, isPlainChar c = true) ∧
      spanConcat (parse_inline_formatting "hi".data) = "hi".data.take 2000 :=
  ⟨by decide, claim10_delimiter_loss.2 "hi".data (by decide)⟩
